import Mathlib

/-!
Shallow embedding of the mrhorse policy plugin (`lib/index.js`) and proofs of the
frozen claims about it.

The JavaScript source registers named "policies" (request-inspection callbacks) at
one of six lifecycle apply points, installs one host extension handler per apply
point the first time a policy is registered there, resolves a route's declared
policy list per request and per apply point, and executes the resolved list
sequentially with fail-fast semantics through `Async.eachSeries`.

Modelling conventions:
* Apply points are strings, as in the source (`_applyPoints` is a string list).
* A policy's `applyPoint` attribute is a JS value that can be `undefined`, an
  explicitly falsy value (`false`, `null`, `''`), or a (truthy) string; the type
  `APAttr` has those three cases.
* A policy is an `id` (only used to observe which policies were invoked), the
  attribute, and its behaviour `run`: the completion signal
  `(err, canContinue, message)` it sends for a given abstract request context.
* The `reply` interface is a state: the `_replied` flag plus the list of terminal
  outcomes actually emitted to the host.
* The registry object `data` keeps `names`, the set of apply points whose
  `setHandlers` flag is true, and a flat association list
  `(applyPoint, name, policy)` for the per-apply-point maps.  The host side of
  `server.ext` calls is a separate `Server` state that a `reset` cannot touch.
-/

namespace MrHorse

/-- Errors produced through the Boom library, plus custom errors a policy may pass. -/
inductive BoomErr
  | forbidden (message : Option String)
  | notImplemented (message : String)
  | badImplementation (message : String)
  | custom (e : Nat)
  deriving DecidableEq

/-- A terminal outcome emitted to the host: `reply(err)` or `reply.continue()`. -/
inductive Outcome
  | errored (e : BoomErr)
  | continued
  deriving DecidableEq

/-- The completion signal a policy sends: `callback(err, canContinue, message)`.
`canContinue` models JS truthiness of the second argument; absent arguments are
`none` / `false`. -/
structure Signal where
  err : Option BoomErr
  canContinue : Bool
  message : Option String

/-- The JS `applyPoint` attribute of a policy function: absent (`undefined`),
explicitly falsy, or a truthy string. -/
inductive APAttr
  | undef
  | falsy
  | strVal (s : String)
  deriving DecidableEq

/-- Abstract request context handed to a policy body. -/
abbrev ReqCtx := Nat

/-- A policy: an observable identity, the optional `applyPoint` attribute, and the
completion signal it sends for a request. -/
structure Policy where
  id : Nat
  applyPoint : APAttr
  run : ReqCtx → Signal

/-- A route's policies entry: a string name, an inline function, or anything else. -/
inductive RouteDirective
  | name (s : String)
  | fn (p : Policy)
  | other

/-- The per-request reply interface: the `_replied` flag and the outcomes that were
actually emitted to the host. -/
structure ReplyState where
  replied : Bool
  outcomes : List Outcome
  deriving DecidableEq

/-- Emitting an outcome through the host finalizes the reply. -/
def emit (r : ReplyState) (o : Outcome) : ReplyState :=
  { replied := true, outcomes := r.outcomes ++ [o] }

/-- `_applyPoints` (lines 10-15): the six lifecycle stages, in temporal order. -/
def _applyPoints : List String :=
  ["onRequest", "onPreAuth", "onPostAuth", "onPreHandler", "onPostHandler", "onPreResponse"]

/-- `hasValidApplyPoint` (lines 17-20): `!policy.applyPoint ||
_applyPoints.indexOf(policy.applyPoint) !== -1`. -/
def hasValidApplyPoint (policy : Policy) : Bool :=
  match policy.applyPoint with
  | APAttr.strVal s => _applyPoints.contains s
  | _ => true

/-- The registry object `data` (lines 22-31): registered names, the apply points
whose `setHandlers` flag is set, and the per-apply-point name-to-policy maps as a
flat association list. -/
structure Data where
  names : List String
  setHandlers : List String
  policies : List (String × String × Policy)

/-- The host server state: the apply points passed to `server.ext`, in call order.
Unlike `data`, this lives in the host and `reset` cannot clear it. -/
structure Server where
  exts : List String

/-- `data[applyPoint][name]` lookup on the association-list representation.
Reachable registries never hold two entries with the same name, so first-match
lookup agrees with JS object indexing. -/
def lookupPolicy (d : Data) (applyPoint s : String) : Option Policy :=
  (d.policies.find? (fun e => e.1 == applyPoint && e.2.1 == s)).map (fun e => e.2.2)

/-- `checkPolicy` (lines 35-48): translate the policy's completion signal into the
`Async.eachSeries` iteration result — `some err` stops the series, `none`
continues.  A signal with no error and a falsy `canContinue` becomes
`Boom.forbidden(message)`. -/
def checkPolicy (policy : Policy) (ctx : ReqCtx) : Option BoomErr :=
  let s := policy.run ctx
  match s.err with
  | some e => some e
  | none => if s.canContinue then none else some (BoomErr.forbidden s.message)

/-- `Async.eachSeries(policiesToRun, checkPolicy, ...)` (line 51), instrumented:
runs the policies one at a time in order, stopping at the first `some err`;
returns the ids of the policies that were actually invoked and the first error. -/
def eachSeriesRun (ctx : ReqCtx) : List Policy → List Nat × Option BoomErr
  | [] => ([], none)
  | p :: rest =>
    match checkPolicy p ctx with
    | some e => ([p.id], some e)
    | none =>
      let r := eachSeriesRun ctx rest
      (p.id :: r.1, r.2)

/-- The final callback of `Async.eachSeries` in `runPolicies` (lines 51-60): the
already-finalized guard `if (!reply._replied)` is checked before emitting
`reply(err)` or `reply.continue()`. -/
def finalize (err : Option BoomErr) (reply : ReplyState) : ReplyState :=
  if reply.replied then reply
  else
    match err with
    | some e => emit reply (Outcome.errored e)
    | none => emit reply Outcome.continued

/-- The outcome a single finalization signal would produce on a fresh reply. -/
def outcomeOfErr : Option BoomErr → Outcome
  | some e => Outcome.errored e
  | none => Outcome.continued

/-- A sequence of firings of the finalization callback (extra firings happen when a
policy signals its completion callback more than once), applied in order. -/
def finalizeAll (signals : List (Option BoomErr)) (reply : ReplyState) : ReplyState :=
  signals.foldl (fun r e => finalize e r) reply

/-- `runPolicies` (lines 33-61), instrumented with the ids of the invoked policies. -/
def runPolicies (policiesToRun : List Policy) (ctx : ReqCtx) (reply : ReplyState) :
    List Nat × ReplyState :=
  let r := eachSeriesRun ctx policiesToRun
  (r.1, finalize r.2 reply)

/-- Stringification of an `applyPoint` attribute for error messages. -/
def apAttrStr : APAttr → String
  | APAttr.undef => "undefined"
  | APAttr.falsy => "false"
  | APAttr.strVal s => s

/-- `routePolicy.applyPoint || defaultApplyPoint` (line 102 and line 161). -/
def effectiveAp : APAttr → String → String
  | APAttr.strVal s, _ => s
  | _, dAp => dAp

/-- The `routePolicies.reduce` resolution loop of a handler (lines 76-114):
validate each directive in declared order, first error wins, and collect the
policies that run at this apply point. -/
def resolve (d : Data) (applyPoint : String) (defaultApplyPoint : String) :
    List RouteDirective → Except BoomErr (List Policy)
  | [] => Except.ok []
  | RouteDirective.name s :: rest =>
    if d.names.contains s then
      match lookupPolicy d applyPoint s with
      | some p => (resolve d applyPoint defaultApplyPoint rest).map (fun l => p :: l)
      | none => resolve d applyPoint defaultApplyPoint rest
    else
      Except.error (BoomErr.notImplemented ("Missing policy: " ++ s))
  | RouteDirective.fn p :: rest =>
    if hasValidApplyPoint p then
      if effectiveAp p.applyPoint defaultApplyPoint == applyPoint then
        (resolve d applyPoint defaultApplyPoint rest).map (fun l => p :: l)
      else
        resolve d applyPoint defaultApplyPoint rest
    else
      Except.error (BoomErr.badImplementation
        ("Trying to use incorrect applyPoint for the dynamic policy: " ++ apAttrStr p.applyPoint))
  | RouteDirective.other :: _ =>
    Except.error (BoomErr.badImplementation "Policy not specified by name or by function.")

/-- A stage handler (lines 65-123): continue immediately when the route declares no
policies, reply with the first resolution error, otherwise run the resolved list.
Returns the ids of the policies invoked at this stage and the reply state. -/
def handler (d : Data) (applyPoint : String) (defaultApplyPoint : String)
    (route : Option (List RouteDirective)) (ctx : ReqCtx) (reply : ReplyState) :
    List Nat × ReplyState :=
  match route with
  | none => ([], emit reply Outcome.continued)
  | some routePolicies =>
    match resolve d applyPoint defaultApplyPoint routePolicies with
    | Except.error e => ([], emit reply (Outcome.errored e))
    | Except.ok policiesToRun => runPolicies policiesToRun ctx reply

/-- Whether a filename ends in `.js`, computed on the character list. -/
def endsWithJs (filename : String) : Bool :=
  filename.data.drop (filename.data.length - 3) == ['.', 'j', 's']

/-- The regex `/(.+)\.js$/` of `loadPolicies` (line 128) applied to a filename:
`some base` exactly when the filename is some non-empty base followed by `.js`. -/
def jsBase (filename : String) : Option String :=
  if endsWithJs filename && decide (3 < filename.data.length) then
    some (String.mk (filename.data.take (filename.data.length - 3)))
  else
    none

/-- Whether line 160's condition `policy.applyPoint === undefined || policy.applyPoint`
holds: the attribute is absent or truthy (not an explicit falsy value). -/
def apDefinedOrTruthy : APAttr → Bool
  | APAttr.falsy => false
  | _ => true

/-- A file of the policy directory: its name and the policy function `require`
returns for it. -/
structure PolicyFile where
  filename : String
  policy : Policy

/-- The `addPolicy` iteration body of `loadPolicies` (lines 137-175): skip
non-`.js` files, reject duplicate names, record the name, reject an invalid
`applyPoint` attribute, store the policy under its effective apply point unless
the attribute is explicitly falsy, and install the stage handler through
`server.ext` the first time that apply point is used.  Returns the error passed
to `addPolicyNext`, if any, together with the mutated registry and server. -/
def addPolicy (defaultApplyPoint : String) (file : PolicyFile) (d : Data) (s : Server) :
    Option String × Data × Server :=
  match jsBase file.filename with
  | none => (none, d, s)
  | some name =>
    if d.names.contains name then
      (some ("Trying to add a duplicate policy: " ++ name), d, s)
    else
      let d1 : Data := { d with names := d.names ++ [name] }
      let policy := file.policy
      if hasValidApplyPoint policy then
        if apDefinedOrTruthy policy.applyPoint then
          let applyPoint := effectiveAp policy.applyPoint defaultApplyPoint
          let d2 : Data := { d1 with policies := d1.policies ++ [(applyPoint, name, policy)] }
          if d2.setHandlers.contains applyPoint then
            (none, d2, s)
          else
            (none, { d2 with setHandlers := d2.setHandlers ++ [applyPoint] },
              { s with exts := s.exts ++ [applyPoint] })
        else
          (none, d1, s)
      else
        (some ("Trying to set incorrect applyPoint for the policy: " ++ apAttrStr policy.applyPoint),
          d1, s)

/-- The `Async.eachSeries(policyFiles, addPolicy, ...)` loop of `loadPolicies`
(lines 125-181): register each file in order, stopping at and propagating the
first error. -/
def loadPoliciesFrom (defaultApplyPoint : String) (files : List PolicyFile)
    (d : Data) (s : Server) : Option String × Data × Server :=
  match files with
  | [] => (none, d, s)
  | f :: rest =>
    match addPolicy defaultApplyPoint f d s with
    | (some e, d1, s1) => (some e, d1, s1)
    | (none, d1, s1) => loadPoliciesFrom defaultApplyPoint rest d1 s1

/-- The fresh registry built at lines 22-31, and rebuilt by `reset`. -/
def resetData : Data :=
  { names := [], setHandlers := [], policies := [] }

/-- `reset` (lines 183-195): replaces `data` with a fresh empty registry.  The
extension handlers already installed in the host server are outside its reach. -/
def reset (st : Data × Server) : Data × Server :=
  (resetData, st.2)

/-- Modelled from the spec (host lifecycle contract, out-of-scope collaborator):
the host runtime walks the apply points in temporal order, invokes the extension
callback at each stage where one is installed with a fresh reply, continues past
a `continued` outcome and stops at the first errored outcome.  Returns, per
visited installed stage, the ids of the policies invoked there, plus the final
error if any. -/
def runStages (d : Data) (defaultApplyPoint : String) (route : Option (List RouteDirective))
    (ctx : ReqCtx) : List String → List (String × List Nat) × Option BoomErr
  | [] => ([], none)
  | ap :: rest =>
    if d.setHandlers.contains ap then
      let r := handler d ap defaultApplyPoint route ctx { replied := false, outcomes := [] }
      match (r.2).outcomes.head? with
      | some (Outcome.errored e) => ([(ap, r.1)], some e)
      | _ =>
        let tr := runStages d defaultApplyPoint route ctx rest
        ((ap, r.1) :: tr.1, tr.2)
    else
      runStages d defaultApplyPoint route ctx rest

/-- One request travelling through all six apply points. -/
def pipeline (d : Data) (defaultApplyPoint : String) (route : Option (List RouteDirective))
    (ctx : ReqCtx) : List (String × List Nat) × Option BoomErr :=
  runStages d defaultApplyPoint route ctx _applyPoints

/-- A completion signal that continues. -/
def contSig : Signal :=
  { err := none, canContinue := true, message := none }

/-- A completion signal that denies with an optional reason. -/
def denySig (m : Option String) : Signal :=
  { err := none, canContinue := false, message := m }

/-- Sample inline policy with no `applyPoint` attribute that always continues. -/
def p0 : Policy :=
  { id := 0, applyPoint := APAttr.undef, run := fun _ => contSig }

/-- Sample policy that always continues. -/
def pCont : Policy :=
  { id := 1, applyPoint := APAttr.undef, run := fun _ => contSig }

/-- Sample policy that always denies with reason "nope". -/
def pDeny : Policy :=
  { id := 2, applyPoint := APAttr.undef, run := fun _ => denySig (some "nope") }

/-- Sample policy placed after a denying one; it would continue if ever invoked. -/
def pAfter : Policy :=
  { id := 3, applyPoint := APAttr.undef, run := fun _ => contSig }

/-- Sample policy that denies with no arguments at all. -/
def pSilent : Policy :=
  { id := 9, applyPoint := APAttr.undef, run := fun _ => denySig none }

/-- Sample policy whose `applyPoint` attribute is explicitly falsy. -/
def pFalsy : Policy :=
  { id := 4, applyPoint := APAttr.falsy, run := fun _ => contSig }

lemma checkPolicy_deny (p : Policy) (ctx : ReqCtx)
    (he : (p.run ctx).err = none) (hc : (p.run ctx).canContinue = false) :
    checkPolicy p ctx = some (BoomErr.forbidden ((p.run ctx).message)) := by
  simp [checkPolicy, he, hc]

lemma finalize_of_replied (e : Option BoomErr) (st : ReplyState) (h : st.replied = true) :
    finalize e st = st := by
  simp [finalize, h]

lemma finalize_of_not_replied (e : Option BoomErr) (st : ReplyState) (h : st.replied = false) :
    finalize e st = { replied := true, outcomes := st.outcomes ++ [outcomeOfErr e] } := by
  cases e <;> simp [finalize, h, emit, outcomeOfErr]

lemma finalizeAll_of_replied (signals : List (Option BoomErr)) (os : List Outcome) :
    finalizeAll signals { replied := true, outcomes := os } =
      { replied := true, outcomes := os } := by
  induction signals with
  | nil => rfl
  | cons e rest ih =>
    show finalizeAll rest (finalize e { replied := true, outcomes := os }) = _
    rw [finalize_of_replied e _ rfl]
    exact ih

/-- C1: for a route's policies `[p1, p2, p3]` resolved to the same apply point, the
executor runs them one at a time in declared order and stops at the first failure:
when `p1` signals continue and `p2` denies with `reason`, exactly `p1` and `p2`
are invoked (in that order), `p3` is never invoked, and the request is finalized
with a single forbidden outcome carrying `reason`. -/
theorem runPolicies_order_failfast (p1 p2 p3 : Policy) (ctx : ReqCtx) (reason : Option String)
    (h1 : checkPolicy p1 ctx = none)
    (h2e : (p2.run ctx).err = none) (h2c : (p2.run ctx).canContinue = false)
    (h2m : (p2.run ctx).message = reason) :
    runPolicies [p1, p2, p3] ctx { replied := false, outcomes := [] } =
      ([p1.id, p2.id],
        { replied := true, outcomes := [Outcome.errored (BoomErr.forbidden reason)] }) := by
  have hc2 : checkPolicy p2 ctx = some (BoomErr.forbidden reason) := by
    rw [checkPolicy_deny p2 ctx h2e h2c, h2m]
  simp [runPolicies, eachSeriesRun, h1, hc2, finalize, emit]

/-- C1 witness: a continuing policy, a policy denying with reason "nope", and a
trailing policy: only the first two run and the outcome is forbidden "nope". -/
theorem runPolicies_order_failfast_witness :
    runPolicies [pCont, pDeny, pAfter] 0 { replied := false, outcomes := [] } =
      ([1, 2],
        { replied := true, outcomes := [Outcome.errored (BoomErr.forbidden (some "nope"))] }) :=
  runPolicies_order_failfast pCont pDeny pAfter 0 (some "nope") rfl rfl rfl rfl

/-- C2: at most one terminal outcome is emitted per request.  However many times the
finalization callback fires (extra firings model a policy signalling its completion
callback more than once), the already-finalized guard makes the first signal alone
determine the outcome, and a reply already finalized through another path emits
nothing; consequently the executor leaves an already-replied reply untouched and
grows the emitted-outcome list by at most one. -/
theorem finalize_single_outcome :
    (∀ (signals : List (Option BoomErr)) (st : ReplyState),
      (finalizeAll signals st).outcomes =
        st.outcomes ++ (match st.replied, signals with
          | true, _ => ([] : List Outcome)
          | false, [] => []
          | false, e :: _ => [outcomeOfErr e])) ∧
    (∀ (ps : List Policy) (ctx : ReqCtx) (os : List Outcome),
      (runPolicies ps ctx { replied := true, outcomes := os }).2 =
        { replied := true, outcomes := os }) ∧
    (∀ (ps : List Policy) (ctx : ReqCtx) (st : ReplyState),
      ((runPolicies ps ctx st).2).outcomes.length ≤ st.outcomes.length + 1) := by
  refine ⟨?_, ?_, ?_⟩
  · intro signals st
    obtain ⟨r, os⟩ := st
    cases r with
    | true => simpa using congrArg ReplyState.outcomes (finalizeAll_of_replied signals os)
    | false =>
      cases signals with
      | nil => simp [finalizeAll]
      | cons e rest =>
        show (finalizeAll rest (finalize e { replied := false, outcomes := os })).outcomes = _
        rw [finalize_of_not_replied e _ rfl]
        simpa using congrArg ReplyState.outcomes (finalizeAll_of_replied rest _)
  · intro ps ctx os
    show finalize (eachSeriesRun ctx ps).2 { replied := true, outcomes := os } = _
    exact finalize_of_replied _ _ rfl
  · intro ps ctx st
    show (finalize (eachSeriesRun ctx ps).2 st).outcomes.length ≤ _
    obtain ⟨r, os⟩ := st
    cases r with
    | true => rw [finalize_of_replied _ _ rfl]; simp
    | false => rw [finalize_of_not_replied _ _ rfl]; simp

/-- C9: a completion signal with no error and a falsy `canContinue` (including a
signal with no arguments at all) is treated as a denial: `checkPolicy` turns it
into a forbidden error carrying the (possibly absent) message, and a request whose
only policy signals this way is finalized with that forbidden outcome. -/
theorem deny_default_outcome (p : Policy) (ctx : ReqCtx)
    (he : (p.run ctx).err = none) (hc : (p.run ctx).canContinue = false) :
    checkPolicy p ctx = some (BoomErr.forbidden ((p.run ctx).message)) ∧
    runPolicies [p] ctx { replied := false, outcomes := [] } =
      ([p.id],
        { replied := true,
          outcomes := [Outcome.errored (BoomErr.forbidden ((p.run ctx).message))] }) := by
  have hcp := checkPolicy_deny p ctx he hc
  exact ⟨hcp, by simp [runPolicies, eachSeriesRun, hcp, finalize, emit]⟩

/-- C9 witness: a policy signalling with no arguments at all denies, and the
forbidden outcome carries no reason message. -/
theorem deny_default_outcome_witness :
    checkPolicy pSilent 0 = some (BoomErr.forbidden none) ∧
    runPolicies [pSilent] 0 { replied := false, outcomes := [] } =
      ([9], { replied := true, outcomes := [Outcome.errored (BoomErr.forbidden none)] }) :=
  deny_default_outcome pSilent 0 rfl rfl

/-- Sample policy file whose name is `a.js`, holding a continuing policy. -/
def fa : PolicyFile :=
  { filename := "a.js", policy := pCont }

/-- Sample policy file reusing the name `a.js`, holding a different policy. -/
def fdup : PolicyFile :=
  { filename := "a.js", policy := pDeny }

/-- Sample policy file whose name is `b.js`. -/
def fb : PolicyFile :=
  { filename := "b.js", policy := pCont }

/-- Sample non-JavaScript file in the policy directory. -/
def ftxt : PolicyFile :=
  { filename := "readme.txt", policy := pCont }

/-- Sample file holding the policy with the explicitly falsy `applyPoint`. -/
def ffalsy : PolicyFile :=
  { filename := "f.js", policy := pFalsy }

/-- The registry after loading exactly `fa` from a fresh state with default apply
point `onPreHandler`. -/
def dA : Data :=
  { names := ["a"], setHandlers := ["onPreHandler"],
    policies := [("onPreHandler", "a", pCont)] }

/-- The server after loading exactly `fa` from a fresh state. -/
def sA : Server :=
  { exts := ["onPreHandler"] }

/-- C6: registering a second policy under an already-registered name fails with the
duplicate-name error naming it and leaves the registry (names, per-apply-point
entries, handler flags) and the host's installed extensions exactly as they were. -/
theorem addPolicy_duplicate_unchanged (dAp : String) (file : PolicyFile) (d : Data)
    (s : Server) (name : String)
    (hm : jsBase file.filename = some name)
    (hd : d.names.contains name = true) :
    addPolicy dAp file d s = (some ("Trying to add a duplicate policy: " ++ name), d, s) := by
  have hmem : name ∈ d.names := by simpa using hd
  simp [addPolicy, hm, hmem]

/-- C6 witness: re-registering `a.js` after `a` is already registered fails and
changes nothing. -/
theorem addPolicy_duplicate_unchanged_witness :
    addPolicy "onPreHandler" fdup dA sA = (some "Trying to add a duplicate policy: a", dA, sA) :=
  addPolicy_duplicate_unchanged "onPreHandler" fdup dA sA "a" rfl rfl

/-- C7: bulk loading registers the files in sequence and short-circuits on the
first failure: if every file of a prefix registers successfully and the next file
fails, the whole batch returns that error, the remaining files are never
processed, and the state is exactly the one reached after the successful prefix
(plus the failing attempt's own partial mutation), so earlier registrations stay
observable. -/
theorem loadPolicies_shortCircuit (dAp : String) (fs1 : List PolicyFile) (f : PolicyFile)
    (fs2 : List PolicyFile) (d : Data) (s : Server) (d1 : Data) (s1 : Server)
    (e : String) (d2 : Data) (s2 : Server)
    (h1 : loadPoliciesFrom dAp fs1 d s = (none, d1, s1))
    (h2 : addPolicy dAp f d1 s1 = (some e, d2, s2)) :
    loadPoliciesFrom dAp (fs1 ++ f :: fs2) d s = (some e, d2, s2) := by
  induction fs1 generalizing d s with
  | nil =>
    simp only [loadPoliciesFrom, Prod.mk.injEq, true_and] at h1
    obtain ⟨hd, hs⟩ := h1
    subst hd; subst hs
    simp [loadPoliciesFrom, h2]
  | cons g rest ih =>
    rw [List.cons_append]
    rcases hg : addPolicy dAp g d s with ⟨oe, dg, sg⟩
    cases oe with
    | some e0 =>
      rw [loadPoliciesFrom, hg] at h1
      simp at h1
    | none =>
      rw [loadPoliciesFrom, hg] at h1
      rw [loadPoliciesFrom, hg]
      exact ih dg sg h1

/-- C7 witness: loading `[a.js, a.js, b.js]` from a fresh registry fails on the
duplicate second file, `b.js` is never registered, and the state still shows the
successful registration of the first `a.js`. -/
theorem loadPolicies_shortCircuit_witness :
    loadPoliciesFrom "onPreHandler" ([fa] ++ fdup :: [fb]) resetData { exts := [] } =
      (some "Trying to add a duplicate policy: a", dA, sA) :=
  loadPolicies_shortCircuit "onPreHandler" [fa] fdup [fb] resetData { exts := [] } dA sA
    "Trying to add a duplicate policy: a" dA sA rfl rfl

/-- C8: a policy whose `applyPoint` attribute is explicitly falsy is registered by
name only: its name is appended to `names`, no per-apply-point entry is created,
no handler flag is set, and no host extension is installed. -/
theorem addPolicy_falsy_applyPoint (dAp : String) (file : PolicyFile) (d : Data)
    (s : Server) (name : String)
    (hm : jsBase file.filename = some name)
    (hd : d.names.contains name = false)
    (hf : file.policy.applyPoint = APAttr.falsy) :
    addPolicy dAp file d s = (none, { d with names := d.names ++ [name] }, s) := by
  have hmem : name ∉ d.names := by simpa using hd
  simp [addPolicy, hm, hmem, hasValidApplyPoint, hf, apDefinedOrTruthy]

/-- C8 witness: loading `f.js`, whose policy has a falsy `applyPoint`, records the
name `f` and nothing else. -/
theorem addPolicy_falsy_applyPoint_witness :
    addPolicy "onPreHandler" ffalsy resetData { exts := [] } =
      (none, { names := ["f"], setHandlers := [], policies := [] }, { exts := [] }) :=
  addPolicy_falsy_applyPoint "onPreHandler" ffalsy resetData { exts := [] } "f" rfl rfl rfl

/-- C10: a file whose name does not end in `.js` is skipped silently during bulk
loading: it registers nothing, produces no error, and loading the remaining files
proceeds as if it were absent. -/
theorem nonJs_skipped (dAp : String) (file : PolicyFile) (d : Data) (s : Server)
    (rest : List PolicyFile)
    (h : endsWithJs file.filename = false) :
    addPolicy dAp file d s = (none, d, s) ∧
    loadPoliciesFrom dAp (file :: rest) d s = loadPoliciesFrom dAp rest d s := by
  have hb : jsBase file.filename = none := by simp [jsBase, h]
  have ha : addPolicy dAp file d s = (none, d, s) := by simp [addPolicy, hb]
  exact ⟨ha, by rw [loadPoliciesFrom, ha]⟩

/-- C10 witness: `readme.txt` is skipped and loading continues with the rest. -/
theorem nonJs_skipped_witness :
    addPolicy "onPreHandler" ftxt resetData { exts := [] } = (none, resetData, { exts := [] }) ∧
    loadPoliciesFrom "onPreHandler" [ftxt, fb] resetData { exts := [] } =
      loadPoliciesFrom "onPreHandler" [fb] resetData { exts := [] } :=
  nonJs_skipped "onPreHandler" ftxt resetData { exts := [] } [fb] rfl

/-- A route directive that resolves without error against registry `d`: a
registered name, or an inline function with a valid apply point. -/
def cleanDirective (d : Data) : RouteDirective → Prop
  | RouteDirective.name t => t ∈ d.names
  | RouteDirective.fn p => hasValidApplyPoint p = true
  | RouteDirective.other => False

lemma resolve_missing (d : Data) (applyPoint defaultApplyPoint : String)
    (L1 L2 : List RouteDirective) (s : String)
    (hclean : ∀ x ∈ L1, cleanDirective d x)
    (hmiss : d.names.contains s = false) :
    resolve d applyPoint defaultApplyPoint (L1 ++ RouteDirective.name s :: L2) =
      Except.error (BoomErr.notImplemented ("Missing policy: " ++ s)) := by
  induction L1 with
  | nil =>
    have hs : s ∉ d.names := by simpa using hmiss
    simp [resolve, hs]
  | cons x rest ih =>
    have hx := hclean x (List.mem_cons_self x rest)
    have hr := ih (fun y hy => hclean y (List.mem_cons_of_mem x hy))
    rw [List.cons_append]
    cases x with
    | name t =>
      have ht : t ∈ d.names := hx
      cases hl : lookupPolicy d applyPoint t with
      | some p => simp [resolve, ht, hl, hr, Except.map]
      | none => simp [resolve, ht, hl, hr]
    | fn p =>
      have hv : hasValidApplyPoint p = true := hx
      by_cases he : (effectiveAp p.applyPoint defaultApplyPoint == applyPoint) = true
      · simp [resolve, hv, he, hr, Except.map]
      · simp only [Bool.not_eq_true] at he
        simp [resolve, hv, he, hr]
    | other => exact hx.elim

/-- C5: when a route's directive list references a name missing from the registry
(all directives before it being well-formed), resolution fails with the
"not implemented" outcome naming the missing policy, and the stage handler
finalizes the request with that outcome while invoking none of the route's
policies. -/
theorem handler_missing_policy (d : Data) (applyPoint defaultApplyPoint : String)
    (ctx : ReqCtx) (L1 L2 : List RouteDirective) (s : String)
    (hclean : ∀ x ∈ L1, cleanDirective d x)
    (hmiss : d.names.contains s = false) :
    resolve d applyPoint defaultApplyPoint (L1 ++ RouteDirective.name s :: L2) =
      Except.error (BoomErr.notImplemented ("Missing policy: " ++ s)) ∧
    handler d applyPoint defaultApplyPoint (some (L1 ++ RouteDirective.name s :: L2)) ctx
        { replied := false, outcomes := [] } =
      ([],
        { replied := true,
          outcomes := [Outcome.errored (BoomErr.notImplemented ("Missing policy: " ++ s))] }) := by
  have hres := resolve_missing d applyPoint defaultApplyPoint L1 L2 s hclean hmiss
  exact ⟨hres, by simp [handler, hres, emit]⟩

/-- C5 witness: with only `a` registered, the route `["a", "missing"]` fails with
`Missing policy: missing` and runs no policy, not even the registered `a`. -/
theorem handler_missing_policy_witness :
    resolve dA "onPreHandler" "onPreHandler"
        [RouteDirective.name "a", RouteDirective.name "missing"] =
      Except.error (BoomErr.notImplemented "Missing policy: missing") ∧
    handler dA "onPreHandler" "onPreHandler"
        (some [RouteDirective.name "a", RouteDirective.name "missing"]) 0
        { replied := false, outcomes := [] } =
      ([],
        { replied := true,
          outcomes := [Outcome.errored (BoomErr.notImplemented "Missing policy: missing")] }) :=
  handler_missing_policy dA "onPreHandler" "onPreHandler" 0 [RouteDirective.name "a"] []
    "missing"
    (by
      intro x hx
      rw [List.mem_singleton] at hx
      subst hx
      show "a" ∈ dA.names
      simp [dA])
    rfl

lemma runStages_cons_skip (d : Data) (dAp : String) (route : Option (List RouteDirective))
    (ctx : ReqCtx) (ap : String) (rest : List String)
    (hf : d.setHandlers.contains ap = false) :
    runStages d dAp route ctx (ap :: rest) = runStages d dAp route ctx rest := by
  have hf2 : ap ∉ d.setHandlers := by simpa using hf
  simp [runStages, hf2]

lemma runStages_cons_halt (d : Data) (dAp : String) (route : Option (List RouteDirective))
    (ctx : ReqCtx) (ap : String) (rest : List String) (ids : List Nat) (e : BoomErr)
    (hf : d.setHandlers.contains ap = true)
    (hh : handler d ap dAp route ctx { replied := false, outcomes := [] } =
      (ids, { replied := true, outcomes := [Outcome.errored e] })) :
    runStages d dAp route ctx (ap :: rest) = ([(ap, ids)], some e) := by
  have hf2 : ap ∈ d.setHandlers := by simpa using hf
  simp [runStages, hf2, hh]

lemma runStages_cons_cont (d : Data) (dAp : String) (route : Option (List RouteDirective))
    (ctx : ReqCtx) (ap : String) (rest : List String) (ids : List Nat)
    (hf : d.setHandlers.contains ap = true)
    (hh : handler d ap dAp route ctx { replied := false, outcomes := [] } =
      (ids, { replied := true, outcomes := [Outcome.continued] })) :
    runStages d dAp route ctx (ap :: rest) =
      ((ap, ids) :: (runStages d dAp route ctx rest).1, (runStages d dAp route ctx rest).2) := by
  have hf2 : ap ∈ d.setHandlers := by simpa using hf
  simp [runStages, hf2, hh]

lemma handler_inline_off (d : Data) (p : Policy) (ap : String) (ctx : ReqCtx)
    (hp : p.applyPoint = APAttr.undef) (hne : ("onPostAuth" == ap) = false) :
    handler d ap "onPostAuth" (some [RouteDirective.fn p]) ctx
        { replied := false, outcomes := [] } =
      ([], { replied := true, outcomes := [Outcome.continued] }) := by
  simp [handler, resolve, hasValidApplyPoint, hp, effectiveAp, hne, runPolicies,
    eachSeriesRun, finalize, emit]

lemma handler_inline_on (d : Data) (p : Policy) (ctx : ReqCtx)
    (hp : p.applyPoint = APAttr.undef) :
    handler d "onPostAuth" "onPostAuth" (some [RouteDirective.fn p]) ctx
        { replied := false, outcomes := [] } =
      ([p.id], { replied := true, outcomes := [outcomeOfErr (checkPolicy p ctx)] }) := by
  cases hc : checkPolicy p ctx with
  | some e =>
    simp [handler, resolve, hasValidApplyPoint, hp, effectiveAp, Except.map, runPolicies,
      eachSeriesRun, hc, finalize, emit, outcomeOfErr]
  | none =>
    simp [handler, resolve, hasValidApplyPoint, hp, effectiveAp, Except.map, runPolicies,
      eachSeriesRun, hc, finalize, emit, outcomeOfErr]

lemma runStages_inline_postauth (d : Data) (p : Policy) (ctx : ReqCtx)
    (hp : p.applyPoint = APAttr.undef) :
    ∀ sts : List String,
      (∀ entry ∈ (runStages d "onPostAuth" (some [RouteDirective.fn p]) ctx sts).1,
        (entry.1 = "onPostAuth" ∧ entry.2 = [p.id]) ∨ entry.2 = []) ∧
      ("onPostAuth" ∈ sts → d.setHandlers.contains "onPostAuth" = true →
        ("onPostAuth", [p.id]) ∈ (runStages d "onPostAuth" (some [RouteDirective.fn p]) ctx sts).1) := by
  intro sts
  induction sts with
  | nil => exact ⟨by simp [runStages], by simp⟩
  | cons ap rest ih =>
    obtain ⟨ih1, ih2⟩ := ih
    by_cases hf : d.setHandlers.contains ap = true
    · by_cases hap : ap = "onPostAuth"
      · subst hap
        have hh := handler_inline_on d p ctx hp
        cases hc : checkPolicy p ctx with
        | some e =>
          rw [hc] at hh
          rw [runStages_cons_halt d "onPostAuth" (some [RouteDirective.fn p]) ctx
            "onPostAuth" rest [p.id] e hf hh]
          constructor
          · intro entry hentry
            rw [List.mem_singleton] at hentry
            subst hentry
            exact Or.inl ⟨rfl, rfl⟩
          · intro _ _
            exact List.mem_singleton.mpr rfl
        | none =>
          rw [hc] at hh
          rw [runStages_cons_cont d "onPostAuth" (some [RouteDirective.fn p]) ctx
            "onPostAuth" rest [p.id] hf hh]
          constructor
          · intro entry hentry
            rcases List.mem_cons.mp hentry with h | h
            · subst h
              exact Or.inl ⟨rfl, rfl⟩
            · exact ih1 entry h
          · intro _ _
            exact List.mem_cons_self _ _
      · have hne : ("onPostAuth" == ap) = false := by
          simp only [beq_eq_false_iff_ne, ne_eq]
          exact fun h => hap h.symm
        have hh := handler_inline_off d p ap ctx hp hne
        rw [runStages_cons_cont d "onPostAuth" (some [RouteDirective.fn p]) ctx ap rest [] hf hh]
        constructor
        · intro entry hentry
          rcases List.mem_cons.mp hentry with h | h
          · subst h
            exact Or.inr rfl
          · exact ih1 entry h
        · intro hmem hflag
          have hrest : "onPostAuth" ∈ rest := by
            rcases List.mem_cons.mp hmem with h | h
            · exact absurd h.symm hap
            · exact h
          exact List.mem_cons_of_mem _ (ih2 hrest hflag)
    · have hf2 : d.setHandlers.contains ap = false := by
        cases hcc : d.setHandlers.contains ap with
        | false => rfl
        | true => exact absurd hcc hf
      rw [runStages_cons_skip d "onPostAuth" (some [RouteDirective.fn p]) ctx ap rest hf2]
      refine ⟨ih1, ?_⟩
      intro hmem hflag
      have hrest : "onPostAuth" ∈ rest := by
        rcases List.mem_cons.mp hmem with h | h
        · rw [← h] at hf2
          rw [hflag] at hf2
          exact absurd hf2 (by simp)
        · exact h
      exact ih2 hrest hflag

/-- C3 counterexample: the claim fails on a fresh registry.  With no stored policy
registered at any apply point, no stage dispatcher is installed, so a route whose
only policy is the inline `p0` (no `applyPoint` attribute) with default apply
point `onPostAuth` produces an empty per-stage trace: `p0` is never executed at
the post-auth stage (or anywhere), contradicting "that policy executes at the
post-authentication stage of every request to that route". -/
theorem inline_postauth_counterexample :
    pipeline resetData "onPostAuth" (some [RouteDirective.fn p0]) 0 = ([], none) := rfl

/-- C3 (amended): an inline policy with no `applyPoint` attribute, declared as the
only policy of a route, under default apply point `onPostAuth`, never executes at
any stage other than post-auth; and provided the post-auth dispatcher is installed
(some stored policy targets `onPostAuth`), it executes, alone, at the post-auth
stage of every request to that route. -/
theorem inline_default_postauth (d : Data) (p : Policy) (ctx : ReqCtx)
    (hp : p.applyPoint = APAttr.undef) :
    (∀ entry ∈ (pipeline d "onPostAuth" (some [RouteDirective.fn p]) ctx).1,
      p.id ∈ entry.2 → entry.1 = "onPostAuth") ∧
    (d.setHandlers.contains "onPostAuth" = true →
      ("onPostAuth", [p.id]) ∈ (pipeline d "onPostAuth" (some [RouteDirective.fn p]) ctx).1) := by
  obtain ⟨h1, h2⟩ := runStages_inline_postauth d p ctx hp _applyPoints
  constructor
  · intro entry hentry hid
    rcases h1 entry hentry with ⟨hap, _⟩ | hnil
    · exact hap
    · rw [hnil] at hid
      exact absurd hid (List.not_mem_nil _)
  · intro hflag
    exact h2 (by simp [_applyPoints]) hflag

/-- Registry in which a stored policy `q` targets `onPostAuth`, so the post-auth
dispatcher is installed. -/
def dPost : Data :=
  { names := ["q"], setHandlers := ["onPostAuth"],
    policies := [("onPostAuth", "q", pCont)] }

/-- C3 witness: with the post-auth dispatcher installed, the inline policy `p0`
executes exactly at the post-auth stage. -/
theorem inline_default_postauth_witness :
    (∀ entry ∈ (pipeline dPost "onPostAuth" (some [RouteDirective.fn p0]) 5).1,
      p0.id ∈ entry.2 → entry.1 = "onPostAuth") ∧
    (dPost.setHandlers.contains "onPostAuth" = true →
      ("onPostAuth", [p0.id]) ∈ (pipeline dPost "onPostAuth" (some [RouteDirective.fn p0]) 5).1) :=
  inline_default_postauth dPost p0 5 rfl

/-- The dispatcher/registry agreement the claim asserts: the host's installed
extensions coincide with the flagged apply points, each apply point was installed
at most once, and an apply point is flagged exactly when some registered policy
targets it. -/
def handlersMatchPolicies (d : Data) (s : Server) : Prop :=
  s.exts = d.setHandlers ∧ d.setHandlers.Nodup ∧
    ∀ ap : String, ap ∈ d.setHandlers ↔ ∃ e ∈ d.policies, e.1 = ap

lemma handlersMatchPolicies_init : handlersMatchPolicies resetData { exts := [] } := by
  refine ⟨rfl, List.nodup_nil, ?_⟩
  intro ap
  simp [resetData]

lemma handlersMatchPolicies_addPolicy (dAp : String) (f : PolicyFile) (d : Data) (s : Server)
    (h : handlersMatchPolicies d s) :
    handlersMatchPolicies (addPolicy dAp f d s).2.1 (addPolicy dAp f d s).2.2 := by
  obtain ⟨hes, hnd, hiff⟩ := h
  cases hm : jsBase f.filename with
  | none =>
    have heq : addPolicy dAp f d s = (none, d, s) := by simp [addPolicy, hm]
    rw [heq]
    exact ⟨hes, hnd, hiff⟩
  | some name =>
    by_cases hdup : name ∈ d.names
    · have heq : addPolicy dAp f d s =
          (some ("Trying to add a duplicate policy: " ++ name), d, s) := by
        simp [addPolicy, hm, hdup]
      rw [heq]
      exact ⟨hes, hnd, hiff⟩
    · by_cases hval : hasValidApplyPoint f.policy = true
      · by_cases hdef : apDefinedOrTruthy f.policy.applyPoint = true
        · by_cases hflag : effectiveAp f.policy.applyPoint dAp ∈ d.setHandlers
          · have heq : addPolicy dAp f d s =
                (none,
                  { names := d.names ++ [name], setHandlers := d.setHandlers,
                    policies :=
                      d.policies ++ [(effectiveAp f.policy.applyPoint dAp, name, f.policy)] },
                  s) := by
              simp [addPolicy, hm, hdup, hval, hdef, hflag]
            rw [heq]
            refine ⟨hes, hnd, ?_⟩
            intro ap
            constructor
            · intro hc
              obtain ⟨e, he, hea⟩ := (hiff ap).mp hc
              exact ⟨e, List.mem_append_left _ he, hea⟩
            · rintro ⟨e, he, hea⟩
              rcases List.mem_append.mp he with hold | hnew
              · exact (hiff ap).mpr ⟨e, hold, hea⟩
              · rw [List.mem_singleton] at hnew
                subst hnew
                rw [← hea]
                exact hflag
          · have heq : addPolicy dAp f d s =
                (none,
                  { names := d.names ++ [name],
                    setHandlers := d.setHandlers ++ [effectiveAp f.policy.applyPoint dAp],
                    policies :=
                      d.policies ++ [(effectiveAp f.policy.applyPoint dAp, name, f.policy)] },
                  { exts := s.exts ++ [effectiveAp f.policy.applyPoint dAp] }) := by
              simp [addPolicy, hm, hdup, hval, hdef, hflag]
            rw [heq]
            refine ⟨by rw [hes], ?_, ?_⟩
            · rw [List.nodup_append]
              exact ⟨hnd, List.nodup_singleton _, by simpa [List.disjoint_left] using hflag⟩
            · intro ap
              constructor
              · intro hc
                rcases List.mem_append.mp hc with hold | hnew
                · obtain ⟨e, he, hea⟩ := (hiff ap).mp hold
                  exact ⟨e, List.mem_append_left _ he, hea⟩
                · rw [List.mem_singleton] at hnew
                  exact ⟨(effectiveAp f.policy.applyPoint dAp, name, f.policy),
                    List.mem_append_right _ (List.mem_singleton.mpr rfl), hnew.symm⟩
              · rintro ⟨e, he, hea⟩
                rcases List.mem_append.mp he with hold | hnew
                · exact List.mem_append_left _ ((hiff ap).mpr ⟨e, hold, hea⟩)
                · rw [List.mem_singleton] at hnew
                  subst hnew
                  exact List.mem_append_right _ (List.mem_singleton.mpr hea.symm)
        · have heq : addPolicy dAp f d s =
              (none,
                { names := d.names ++ [name], setHandlers := d.setHandlers,
                  policies := d.policies },
                s) := by
            simp [addPolicy, hm, hdup, hval, hdef]
          rw [heq]
          exact ⟨hes, hnd, hiff⟩
      · have heq : addPolicy dAp f d s =
            (some ("Trying to set incorrect applyPoint for the policy: " ++
                apAttrStr f.policy.applyPoint),
              { names := d.names ++ [name], setHandlers := d.setHandlers,
                policies := d.policies },
              s) := by
          simp [addPolicy, hm, hdup, hval]
        rw [heq]
        exact ⟨hes, hnd, hiff⟩

lemma handlersMatchPolicies_load (dAp : String) (fs : List PolicyFile) :
    ∀ (d : Data) (s : Server), handlersMatchPolicies d s →
      handlersMatchPolicies (loadPoliciesFrom dAp fs d s).2.1
        (loadPoliciesFrom dAp fs d s).2.2 := by
  induction fs with
  | nil => exact fun d s h => h
  | cons f rest ih =>
    intro d s h
    have hstep := handlersMatchPolicies_addPolicy dAp f d s h
    rcases hadd : addPolicy dAp f d s with ⟨oe, d1, s1⟩
    rw [hadd] at hstep
    cases oe with
    | some e =>
      rw [loadPoliciesFrom, hadd]
      exact hstep
    | none =>
      rw [loadPoliciesFrom, hadd]
      exact ih d1 s1 hstep

/-- C4 counterexample: the claimed equivalence fails after a `reset`.  Load the
policy file `a.js` from a fresh state (this installs the `onPreHandler`
dispatcher) and then reset: the host extension at `onPreHandler` is still
installed, yet the registry holds no policy targeting any apply point — refuting
"a dispatcher is installed at V if and only if at least one policy is currently
registered targeting V" at V = `onPreHandler`. -/
theorem dispatcher_reset_counterexample :
    (reset (loadPoliciesFrom "onPreHandler" [fa] resetData { exts := [] }).2).2.exts.contains
        "onPreHandler" = true ∧
    (reset (loadPoliciesFrom "onPreHandler" [fa] resetData { exts := [] }).2).1.policies = [] :=
  ⟨rfl, rfl⟩

/-- C4 (amended): for every registration history without reset (any bulk load from
the fresh registry), a host dispatcher is installed at an apply point if and only
if at least one registered policy currently targets it, and each apply point is
installed at most once — in particular registering a second policy at an
already-flagged stage does not re-install.  After a `reset`, the host-side
installation survives with no policy targeting the stage, so the equivalence
holds only for the registry's own flags, not for the host extensions. -/
theorem dispatcher_iff_policies (dAp : String) (fs : List PolicyFile) :
    handlersMatchPolicies (loadPoliciesFrom dAp fs resetData { exts := [] }).2.1
      (loadPoliciesFrom dAp fs resetData { exts := [] }).2.2 :=
  handlersMatchPolicies_load dAp fs resetData { exts := [] } handlersMatchPolicies_init

end MrHorse
